import Mathlib

/-!
Shallow embedding of the FastVLM inference pipeline core
(`src/fastvlm/fastvlm.rs` and `src/fastvlm/fastvlm_image_process.rs`).

Conventions of the embedding:
* `f32` values are modelled as exact rationals (`Rat`); `exp` is an
  injected parameter function where the source calls `f32::exp`.
* `u32` arithmetic that can overflow is modelled with an explicit
  `% 2 ^ 32` (release-build wrapping semantics).
* A `[1, L, D]` `ndarray::Array3` is modelled as a list of `L` rows
  (one per sequence position) together with its recorded hidden size.
* Fallible Rust functions returning `anyhow::Result` are modelled with
  `Except String`; a Rust panic (out-of-bounds index) is modelled by
  `Option` with `none` for the panicking run.
* External collaborators (tokenizer decode, ONNX sessions, the `image`
  crate resize filter) are injected as parameters; only contracts the
  source relies on are assumed about them, as hypotheses.
-/

namespace FastVLM

/-- Special token id `EOS_TOKEN_ID` from fastvlm.rs (`<|im_end|>`). -/
def EOS_TOKEN_ID : Int := 151645

/-- Special token id `IM_END_TOKEN_ID` from fastvlm.rs (`<|im_end|>`). -/
def IM_END_TOKEN_ID : Int := 151645

/-- Special token id `IMAGE_TOKEN_ID` from fastvlm.rs (`<image>`). -/
def IMAGE_TOKEN_ID : Int := 151646

/-- Embedding of `Iterator::position`: index of the first element
satisfying the predicate, `none` if there is none. -/
def firstPosition (p : Int → Bool) : List Int → Option Nat
  | [] => none
  | a :: t => if p a then some 0 else (firstPosition p t).map (· + 1)

/-- Embedding of the placeholder-position computation in
`generate_text_sync` (fastvlm.rs lines 224-225):
`input_ids.iter().position(|&id| id == IMAGE_TOKEN_ID).unwrap_or(input_ids.len() / 2)`. -/
def imageTokenPosition (inputIds : List Int) : Nat :=
  match firstPosition (fun id => id == IMAGE_TOKEN_ID) inputIds with
  | some i => i
  | none => inputIds.length / 2

/-- Cap on image tokens spliced into the fused sequence
(`max_image_tokens` in `fuse_image_text_embeddings`). -/
def MAX_IMAGE_TOKENS : Nat := 256

/-- Model of an `ndarray::Array3<f32>` of shape `[1, data.length, hidden]`:
`data` holds one row of `hidden` rationals per sequence position. -/
structure Arr3 where
  data : List (List Rat)
  hidden : Nat
deriving DecidableEq

/-- Embedding of `fuse_image_text_embeddings` (fastvlm.rs lines 294-338).
The source checks the hidden dimension, truncates the image rows to
`min(image_seq_len, 256)`, and assigns the three slices
`[0,pos)`, `[pos, pos+ai)`, `[pos+ai, ..)` of a zero buffer from the
text prefix, the truncated image rows, and the text suffix; for
`pos <= text length` (the source panics past that bound) this equals
the concatenation below. -/
def fuseImageTextEmbeddings (textEmbeds imageFeatures : Arr3)
    (imageTokenPos : Nat) : Except String Arr3 :=
  let hiddenDim := textEmbeds.hidden
  if imageFeatures.hidden ≠ hiddenDim then
    Except.error "Image feature dimension does not match text dimension"
  else
    let actualImageTokens := min imageFeatures.data.length MAX_IMAGE_TOKENS
    Except.ok
      { data := textEmbeds.data.take imageTokenPos
          ++ (imageFeatures.data.take actualImageTokens
            ++ textEmbeds.data.drop imageTokenPos)
        hidden := hiddenDim }

theorem firstPosition_eq_none_iff {p : Int → Bool} {l : List Int} :
    firstPosition p l = none ↔ ∀ a ∈ l, p a = false := by
  induction l with
  | nil => simp [firstPosition]
  | cons a t ih =>
    by_cases hpa : p a
    · simp [firstPosition, hpa]
    · simp only [firstPosition, hpa, if_neg, Bool.false_eq_true, not_false_eq_true,
        Option.map_eq_none', ih, List.mem_cons]
      constructor
      · rintro h b (rfl | hb)
        · simpa using hpa
        · exact h b hb
      · intro h b hb
        exact h b (Or.inr hb)

theorem firstPosition_spec {p : Int → Bool} {l : List Int} {i : Nat}
    (h : firstPosition p l = some i) :
    ∃ a, l[i]? = some a ∧ p a = true ∧
      ∀ j < i, ∀ b, l[j]? = some b → p b = false := by
  induction l generalizing i with
  | nil => simp [firstPosition] at h
  | cons a t ih =>
    by_cases hpa : p a
    · simp only [firstPosition, hpa, if_pos] at h
      cases h
      exact ⟨a, by simp, hpa, fun j hj => by omega⟩
    · simp only [firstPosition, hpa, if_neg, Bool.false_eq_true,
        not_false_eq_true, Option.map_eq_some'] at h
      obtain ⟨i', hi', rfl⟩ := h
      obtain ⟨b, hb, hpb, hlt⟩ := ih hi'
      refine ⟨b, by simpa using hb, hpb, ?_⟩
      intro j hj c hc
      cases j with
      | zero =>
        simp only [List.getElem?_cons_zero, Option.some.injEq] at hc
        subst hc
        simpa using hpa
      | succ j' =>
        exact hlt j' (by omega) c (by simpa using hc)

/-- Claim C3: if the tokenized prompt has no occurrence of the reserved
image-placeholder id, the fusion position is `floor(Lt/2)`; if it
occurs, the position is the index of its first occurrence. -/
theorem c3_image_token_position (inputIds : List Int) :
    (IMAGE_TOKEN_ID ∉ inputIds →
      imageTokenPosition inputIds = inputIds.length / 2) ∧
    (IMAGE_TOKEN_ID ∈ inputIds →
      inputIds[imageTokenPosition inputIds]? = some IMAGE_TOKEN_ID ∧
      ∀ j < imageTokenPosition inputIds,
        inputIds[j]? ≠ some IMAGE_TOKEN_ID) := by
  constructor
  · intro hmem
    have hnone : firstPosition (fun id => id == IMAGE_TOKEN_ID) inputIds = none := by
      rw [firstPosition_eq_none_iff]
      intro a ha
      simp only [beq_eq_false_iff_ne, ne_eq]
      intro hcontr
      exact hmem (hcontr ▸ ha)
    simp [imageTokenPosition, hnone]
  · intro hmem
    cases hfp : firstPosition (fun id => id == IMAGE_TOKEN_ID) inputIds with
    | none =>
      exfalso
      have := firstPosition_eq_none_iff.mp hfp IMAGE_TOKEN_ID hmem
      simp at this
    | some i =>
      obtain ⟨a, ha, hpa, hlt⟩ := firstPosition_spec hfp
      have haeq : a = IMAGE_TOKEN_ID := by simpa using hpa
      subst haeq
      refine ⟨by simpa [imageTokenPosition, hfp] using ha, ?_⟩
      intro j hj hcontr
      have := hlt j (by simpa [imageTokenPosition, hfp] using hj)
        IMAGE_TOKEN_ID hcontr
      simp at this

/-- Claim C2: for text `[1,Lt,D]`, image `[1,Li,D]` with equal hidden
size and `pos <= Lt`, fusion succeeds with shape
`[1, Lt + min(Li,256), D]`, whose prefix `[0,pos)` is the text verbatim,
whose middle block is the first `min(Li,256)` image rows, and whose
suffix is the remaining text rows `[pos, Lt)`. -/
theorem c2_fuse_shape_and_content (textEmbeds imageFeatures : Arr3) (pos : Nat)
    (hdim : imageFeatures.hidden = textEmbeds.hidden)
    (hpos : pos ≤ textEmbeds.data.length) :
    ∃ fused : Arr3,
      fuseImageTextEmbeddings textEmbeds imageFeatures pos = Except.ok fused ∧
      fused.hidden = textEmbeds.hidden ∧
      fused.data.length =
        textEmbeds.data.length + min imageFeatures.data.length MAX_IMAGE_TOKENS ∧
      fused.data.take pos = textEmbeds.data.take pos ∧
      (fused.data.drop pos).take (min imageFeatures.data.length MAX_IMAGE_TOKENS) =
        imageFeatures.data.take (min imageFeatures.data.length MAX_IMAGE_TOKENS) ∧
      fused.data.drop (pos + min imageFeatures.data.length MAX_IMAGE_TOKENS) =
        textEmbeds.data.drop pos := by
  have hA : (textEmbeds.data.take pos).length = pos := by
    simp only [List.length_take]
    omega
  have hB : (imageFeatures.data.take
        (min imageFeatures.data.length MAX_IMAGE_TOKENS)).length =
      min imageFeatures.data.length MAX_IMAGE_TOKENS := by
    simp only [List.length_take]
    omega
  refine ⟨⟨textEmbeds.data.take pos
      ++ (imageFeatures.data.take (min imageFeatures.data.length MAX_IMAGE_TOKENS)
        ++ textEmbeds.data.drop pos), textEmbeds.hidden⟩,
    ?_, rfl, ?_, ?_, ?_, ?_⟩
  · simp [fuseImageTextEmbeddings, hdim]
  · simp only [List.length_append, List.length_take, List.length_drop]
    omega
  · exact List.take_left' hA
  · rw [List.drop_left' hA]
    exact List.take_left' hB
  · rw [← List.append_assoc]
    exact List.drop_left' (by rw [List.length_append, hA, hB])

/-- Witness text embeddings for the fusion theorems: shape `[1,2,1]`. -/
def witnessTextEmbeds : Arr3 := ⟨[[3], [4]], 1⟩

/-- Witness image embeddings for the fusion theorems: shape `[1,1,1]`. -/
def witnessImageEmbeds : Arr3 := ⟨[[9]], 1⟩

theorem c2_fuse_shape_and_content_witness :
    ∃ fused : Arr3,
      fuseImageTextEmbeddings witnessTextEmbeds witnessImageEmbeds 1 = Except.ok fused ∧
      fused.hidden = witnessTextEmbeds.hidden ∧
      fused.data.length = witnessTextEmbeds.data.length
        + min witnessImageEmbeds.data.length MAX_IMAGE_TOKENS ∧
      fused.data.take 1 = witnessTextEmbeds.data.take 1 ∧
      (fused.data.drop 1).take (min witnessImageEmbeds.data.length MAX_IMAGE_TOKENS) =
        witnessImageEmbeds.data.take (min witnessImageEmbeds.data.length MAX_IMAGE_TOKENS) ∧
      fused.data.drop (1 + min witnessImageEmbeds.data.length MAX_IMAGE_TOKENS) =
        witnessTextEmbeds.data.drop 1 :=
  c2_fuse_shape_and_content witnessTextEmbeds witnessImageEmbeds 1 (by decide) (by decide)

/-- Claim C8: when the hidden dimensions of the text and image
embeddings differ, fusion returns the fatal shape-mismatch error and
produces no fused output. -/
theorem c8_fuse_dim_mismatch_error (textEmbeds imageFeatures : Arr3) (pos : Nat)
    (hdim : imageFeatures.hidden ≠ textEmbeds.hidden) :
    fuseImageTextEmbeddings textEmbeds imageFeatures pos =
      Except.error "Image feature dimension does not match text dimension" ∧
    ∀ fused : Arr3,
      fuseImageTextEmbeddings textEmbeds imageFeatures pos ≠ Except.ok fused := by
  constructor
  · simp [fuseImageTextEmbeddings, hdim]
  · intro fused
    simp [fuseImageTextEmbeddings, hdim]

/-- Witness image embeddings with hidden size 2, mismatching
`witnessTextEmbeds`. -/
def witnessBadImageEmbeds : Arr3 := ⟨[[9, 9]], 2⟩

theorem c8_fuse_dim_mismatch_error_witness :
    fuseImageTextEmbeddings witnessTextEmbeds witnessBadImageEmbeds 1 =
      Except.error "Image feature dimension does not match text dimension" ∧
    ∀ fused : Arr3,
      fuseImageTextEmbeddings witnessTextEmbeds witnessBadImageEmbeds 1 ≠
        Except.ok fused :=
  c8_fuse_dim_mismatch_error witnessTextEmbeds witnessBadImageEmbeds 1 (by decide)

theorem c3_image_token_position_witness :
    ([0, 151646, 5] : List Int)[imageTokenPosition [0, 151646, 5]]? =
      some IMAGE_TOKEN_ID :=
  ((c3_image_token_position [0, 151646, 5]).2 (by decide)).1


/-- Observable state of the autoregressive loop in
`generate_with_decoder` (fastvlm.rs lines 340-449).  The decoder and
embedding networks themselves are external; the fields below are the
Rust locals the loop mutates.  `stopped` records that the `break` on a
stop token fired; `decoderCalls` counts decoder invocations. -/
structure GenState where
  generatedTokens : List Int
  attentionMask : List Int
  positionIds : List Int
  stopped : Bool
  decoderCalls : Nat
deriving DecidableEq

/-- Loop-entry state: `position_ids = [0..L)`, attention mask all ones
of length `L`, no generated tokens (fastvlm.rs lines 344-365). -/
def initGenState (seqLen : Nat) : GenState :=
  { generatedTokens := []
    attentionMask := List.replicate seqLen 1
    positionIds := (List.range seqLen).map Int.ofNat
    stopped := false
    decoderCalls := 0 }

/-- Stop condition of fastvlm.rs line 419:
`next_token_id == EOS_TOKEN_ID || next_token_id == IM_END_TOKEN_ID`. -/
def isStopToken (tok : Int) : Bool :=
  tok == EOS_TOKEN_ID || tok == IM_END_TOKEN_ID

/-- One iteration of the `for step in 0..max_response_length` loop
(fastvlm.rs lines 367-436).  `sample step` is the token id produced by
the decoder plus sampler at that step (both external to this state).
A fired `break` is modelled by `stopped = true`, after which remaining
iterations change nothing. -/
def decoderStep (sample : Nat → Int) (step : Nat) (st : GenState) : GenState :=
  if st.stopped then st
  else
    let tok := sample step
    if isStopToken tok then
      { st with stopped := true, decoderCalls := st.decoderCalls + 1 }
    else
      let currentSeqLen := st.attentionMask.length
      { generatedTokens := st.generatedTokens ++ [tok]
        attentionMask := List.replicate (currentSeqLen + 1) 1
        positionIds := [Int.ofNat currentSeqLen]
        stopped := false
        decoderCalls := st.decoderCalls + 1 }

/-- Runs the loop iterations `step, step+1, ...` for `n` more
iterations. -/
def genRunFrom (sample : Nat → Int) (step : Nat) : Nat → GenState → GenState
  | 0, st => st
  | n + 1, st => genRunFrom sample (step + 1) n (decoderStep sample step st)

/-- Embedding of the whole generation loop of `generate_with_decoder`
for a fused input sequence of length `seqLen`. -/
def generateWithDecoder (sample : Nat → Int) (maxResponseLength seqLen : Nat) :
    GenState :=
  genRunFrom sample 0 maxResponseLength (initGenState seqLen)

/-- Embedding of the result assembly after the loop (fastvlm.rs lines
440-448) composed with the final trim of `generate_text_sync` line 235:
empty token list yields the literal placeholder, otherwise the injected
tokenizer decode, trimmed.  (Trimming twice equals trimming once, so
one `trim` is kept.) -/
def finalizeResult (decode : List Int → Except String String)
    (generatedTokens : List Int) : Except String String :=
  if generatedTokens.isEmpty then Except.ok "No response generated."
  else (decode generatedTokens).map (fun s => s.trim)

theorem decoderStep_of_stopped {sample : Nat → Int} {step : Nat}
    {st : GenState} (h : st.stopped = true) :
    decoderStep sample step st = st := by
  simp [decoderStep, h]

theorem decoderStep_of_stopTok {sample : Nat → Int} {step : Nat}
    {st : GenState} (h1 : st.stopped = false)
    (h2 : isStopToken (sample step) = true) :
    decoderStep sample step st =
      { st with stopped := true, decoderCalls := st.decoderCalls + 1 } := by
  simp [decoderStep, h1, h2]

theorem decoderStep_of_append {sample : Nat → Int} {step : Nat}
    {st : GenState} (h1 : st.stopped = false)
    (h2 : isStopToken (sample step) = false) :
    decoderStep sample step st =
      { generatedTokens := st.generatedTokens ++ [sample step]
        attentionMask := List.replicate (st.attentionMask.length + 1) 1
        positionIds := [Int.ofNat st.attentionMask.length]
        stopped := false
        decoderCalls := st.decoderCalls + 1 } := by
  simp [decoderStep, h1, h2]

theorem decoderStep_tokens_le (sample : Nat → Int) (step : Nat)
    (st : GenState) :
    (decoderStep sample step st).generatedTokens.length ≤
      st.generatedTokens.length + 1 ∧
    (decoderStep sample step st).decoderCalls ≤ st.decoderCalls + 1 := by
  by_cases h1 : st.stopped
  · rw [decoderStep_of_stopped h1]
    omega
  · by_cases h2 : isStopToken (sample step)
    · rw [decoderStep_of_stopTok (Bool.not_eq_true _ ▸ h1) h2]
      constructor <;> simp
    · rw [decoderStep_of_append (Bool.not_eq_true _ ▸ h1)
        (Bool.not_eq_true _ ▸ h2)]
      constructor <;> simp

theorem genRunFrom_tokens_le (sample : Nat → Int) :
    ∀ (n step : Nat) (st : GenState),
      (genRunFrom sample step n st).generatedTokens.length ≤
        st.generatedTokens.length + n ∧
      (genRunFrom sample step n st).decoderCalls ≤ st.decoderCalls + n := by
  intro n
  induction n with
  | zero =>
    intro step st
    simp [genRunFrom]
  | succ m ih =>
    intro step st
    have h := ih (step + 1) (decoderStep sample step st)
    have hs := decoderStep_tokens_le sample step st
    exact ⟨by simp only [genRunFrom]; omega, by simp only [genRunFrom]; omega⟩

/-- Claim C4: for every fused input length and every sequence of
decoder/sampler outcomes, the loop invokes the decoder at most
`max_response_length` times, generates at most `max_response_length`
tokens, and (being a total function of its inputs) terminates. -/
theorem c4_generation_bounded (sample : Nat → Int)
    (maxResponseLength seqLen : Nat) :
    (generateWithDecoder sample maxResponseLength seqLen).decoderCalls ≤
      maxResponseLength ∧
    (generateWithDecoder sample maxResponseLength seqLen).generatedTokens.length ≤
      maxResponseLength := by
  have h := genRunFrom_tokens_le sample maxResponseLength 0 (initGenState seqLen)
  simp only [initGenState, List.length_nil] at h
  exact ⟨by simpa using h.2, by simpa using h.1⟩

theorem genRunFrom_of_stopped (sample : Nat → Int) :
    ∀ (n step : Nat) (st : GenState), st.stopped = true →
      genRunFrom sample step n st = st := by
  intro n
  induction n with
  | zero =>
    intro step st _
    rfl
  | succ m ih =>
    intro step st hstop
    show genRunFrom sample (step + 1) m (decoderStep sample step st) = st
    rw [decoderStep_of_stopped hstop]
    exact ih (step + 1) st hstop

/-- Claim C5: whenever the loop ends with an empty `generated_tokens`
list — in particular when `max_response_length = 0` and when the very
first sampled token is a stop token — the pipeline returns the literal
text "No response generated." as a successful value; a non-empty list
is decoded by the tokenizer and trimmed. -/
theorem c5_empty_generation_placeholder (sample : Nat → Int)
    (decode : List Int → Except String String)
    (maxResponseLength seqLen : Nat) (tokens : List Int) :
    finalizeResult decode [] = Except.ok "No response generated." ∧
    (generateWithDecoder sample 0 seqLen).generatedTokens = [] ∧
    (isStopToken (sample 0) = true →
      (generateWithDecoder sample maxResponseLength seqLen).generatedTokens = []) ∧
    (tokens ≠ [] →
      finalizeResult decode tokens = (decode tokens).map (fun s => s.trim)) := by
  refine ⟨rfl, rfl, ?_, ?_⟩
  · intro hstop
    cases maxResponseLength with
    | zero => rfl
    | succ m =>
      show (genRunFrom sample 1 m
        (decoderStep sample 0 (initGenState seqLen))).generatedTokens = []
      rw [decoderStep_of_stopTok rfl hstop,
        genRunFrom_of_stopped sample m 1 _ rfl]
      rfl
  · intro hne
    simp [finalizeResult, hne]

theorem c5_empty_generation_placeholder_witness :
    finalizeResult (fun _ => Except.ok " ok ") [] =
      Except.ok "No response generated." ∧
    (generateWithDecoder (fun _ => 151645) 0 6).generatedTokens = [] ∧
    (generateWithDecoder (fun _ => 151645) 5 6).generatedTokens = [] ∧
    finalizeResult (fun _ => Except.ok " ok ") [7] =
      (Except.ok " ok " : Except String String).map (fun s => s.trim) := by
  obtain ⟨h1, h2, h3, h4⟩ :=
    c5_empty_generation_placeholder (fun _ => 151645)
      (fun _ => Except.ok " ok ") 5 6 [7]
  exact ⟨h1, h2, h3 (by decide), h4 (by decide)⟩

theorem genRunFrom_mask_invariant (sample : Nat → Int) (seqLen : Nat) :
    ∀ (n step : Nat) (st : GenState),
      st.attentionMask.length = seqLen + st.generatedTokens.length →
      (genRunFrom sample step n st).attentionMask.length =
        seqLen + (genRunFrom sample step n st).generatedTokens.length := by
  intro n
  induction n with
  | zero =>
    intro step st h
    exact h
  | succ m ih =>
    intro step st h
    apply ih
    by_cases h1 : st.stopped
    · rw [decoderStep_of_stopped h1]
      exact h
    · by_cases h2 : isStopToken (sample step)
      · rw [decoderStep_of_stopTok (Bool.not_eq_true _ ▸ h1) h2]
        exact h
      · rw [decoderStep_of_append (Bool.not_eq_true _ ▸ h1)
          (Bool.not_eq_true _ ▸ h2)]
        simp only [List.length_replicate, List.length_append, List.length_cons,
          List.length_nil]
        omega

/-- Claim C9: a step on a not-yet-stopped state with a stop token stops
without appending; otherwise the token is appended, the attention mask
becomes its old value extended by exactly one one-valued entry, and the
new `position_ids` is the single value equal to the pre-step sequence
length; across the whole run, the sequence length always equals the
initial fused length plus the tokens generated so far. -/
theorem c9_step_invariants (sample : Nat → Int)
    (step seqLen maxResponseLength : Nat) (st : GenState)
    (hrun : st.stopped = false) :
    (isStopToken (sample step) = true →
      decoderStep sample step st =
        { st with stopped := true, decoderCalls := st.decoderCalls + 1 }) ∧
    (isStopToken (sample step) = false →
      (decoderStep sample step st).generatedTokens =
        st.generatedTokens ++ [sample step] ∧
      (st.attentionMask = List.replicate st.attentionMask.length 1 →
        (decoderStep sample step st).attentionMask = st.attentionMask ++ [1]) ∧
      (decoderStep sample step st).positionIds =
        [Int.ofNat st.attentionMask.length]) ∧
    (generateWithDecoder sample maxResponseLength seqLen).attentionMask.length =
      seqLen +
        (generateWithDecoder sample maxResponseLength seqLen).generatedTokens.length := by
  refine ⟨?_, ?_, ?_⟩
  · intro hstop
    exact decoderStep_of_stopTok hrun hstop
  · intro hnot
    rw [decoderStep_of_append hrun hnot]
    refine ⟨rfl, ?_, rfl⟩
    intro hmask
    conv_lhs => rw [List.replicate_succ']
    rw [← hmask]
  · apply genRunFrom_mask_invariant
    simp [initGenState]

theorem c9_step_invariants_witness :
    (decoderStep (fun _ => 151645) 0
        { generatedTokens := [2], attentionMask := [1, 1], positionIds := [1],
          stopped := false, decoderCalls := 1 } =
      { generatedTokens := [2], attentionMask := [1, 1], positionIds := [1],
        stopped := true, decoderCalls := 2 }) ∧
    ((decoderStep (fun _ => 9) 0
        { generatedTokens := [2], attentionMask := [1, 1], positionIds := [1],
          stopped := false, decoderCalls := 1 }).attentionMask = [1, 1] ++ [1]) ∧
    ((decoderStep (fun _ => 9) 0
        { generatedTokens := [2], attentionMask := [1, 1], positionIds := [1],
          stopped := false, decoderCalls := 1 }).positionIds = [Int.ofNat 2]) := by
  refine ⟨?_, ?_, ?_⟩
  · exact (c9_step_invariants (fun _ => 151645) 0 1 1 _ rfl).1 (by decide)
  · exact (((c9_step_invariants (fun _ => 9) 0 1 1 _ rfl).2.1 (by decide)).2.1
      (by decide))
  · exact ((c9_step_invariants (fun _ => 9) 0 1 1 _ rfl).2.1 (by decide)).2.2


/-- Top-K cutoff `TOP_K` of `sample_token` (fastvlm.rs line 453). -/
def TOP_K : Nat := 50

/-- Vocabulary cap applied to the last-position logits slice
(fastvlm.rs line 414: `logits.shape()[2].min(151646)`). -/
def VOCAB_SIZE_CAP : Nat := 151646

/-- Length of the logits slice handed to `sample_token` by the
generation loop when the decoder emits `vocabDim` logits per position
(fastvlm.rs lines 413-415). -/
def lastTokenLogitsLen (vocabDim : Nat) : Nat := min vocabDim VOCAB_SIZE_CAP

/-- Stable insertion of an indexed logit into a descending-sorted list:
the element keeps walking only past strictly greater values, so it
lands before later-positioned elements of equal value. -/
def insertRankedDesc (z : Nat × Rat) : List (Nat × Rat) → List (Nat × Rat)
  | [] => [z]
  | a :: t => if z.2 < a.2 then a :: insertRankedDesc z t else z :: a :: t

/-- Stable descending sort by logit value.  The source calls
`slice::sort_by` with the comparator `b.1.partial_cmp(&a.1)`; that sort
is stable, and a stable sort under a fixed total preorder has a unique
result, realised here by stable insertion sort (structurally recursive
so that concrete runs reduce). -/
def sortRankedDesc : List (Nat × Rat) → List (Nat × Rat)
  | [] => []
  | a :: t => insertRankedDesc a (sortRankedDesc t)

/-- Embedding of the ranking stage of `sample_token` (fastvlm.rs lines
456-463): pair every logit with its index, stable-sort by descending
logit, keep the first `TOP_K`. -/
def rankedTopK (logits : List Rat) : List (Nat × Rat) :=
  (sortRankedDesc logits.enum).take TOP_K

theorem length_insertRankedDesc (z : Nat × Rat) :
    ∀ l : List (Nat × Rat), (insertRankedDesc z l).length = l.length + 1 := by
  intro l
  induction l with
  | nil => rfl
  | cons a t ih =>
    by_cases h : z.2 < a.2
    · simp [insertRankedDesc, h, ih]
    · simp [insertRankedDesc, h]

theorem length_sortRankedDesc :
    ∀ l : List (Nat × Rat), (sortRankedDesc l).length = l.length := by
  intro l
  induction l with
  | nil => rfl
  | cons a t ih =>
    simp [sortRankedDesc, length_insertRankedDesc, ih]

/-- Embedding of the cumulative sampling walk of `sample_token`
(fastvlm.rs lines 485-494): accumulate probabilities in ranked order
and return the first index whose cumulative sum reaches the draw; if
none does, the source falls through to `Ok(0)` — the literal token
id 0, whatever the ranked list holds. -/
def walkCumulative (randomVal : Rat) : List (Nat × Rat) → Rat → Int
  | [], _ => 0
  | (idx, prob) :: rest, acc =>
    if randomVal ≤ acc + prob then Int.ofNat idx
    else walkCumulative randomVal rest (acc + prob)

/-- Embedding of `sample_token` (fastvlm.rs lines 451-495).  `fexp`
injects `f32::exp`; `randomVal` injects the time-seeded draw of lines
480-482 (the randomness source, kept as a parameter so the shape
guarantees can be stated for every draw).  `none` models the panic of
`indexed_logits[0]` on an empty logits slice (line 466). -/
def sampleToken (fexp : Rat → Rat) (logits : List Rat)
    (temperature randomVal : Rat) : Option Int :=
  match rankedTopK logits with
  | [] => none
  | top :: rest =>
    let maxLogit := top.2
    let expScaled := (top :: rest).map
      (fun p => (p.1, fexp ((p.2 - maxLogit) / temperature)))
    let sumExp := (expScaled.map Prod.snd).sum
    let probabilities := expScaled.map (fun p => (p.1, p.2 / sumExp))
    some (walkCumulative randomVal probabilities 0)

set_option maxHeartbeats 2000000 in
/-- Claim C1 fails on the code: with 51 logits whose smallest entry sits
at index 0 (so index 0 is outside the top-50 set) and a draw that no
cumulative probability reaches (the case the spec attributes to
floating-point rounding), `sample_token` returns `Ok(0)` — the literal
vocabulary index 0 — although the id ranked most probable is 1 and
index 0 is not among the top-K ids at all.  The code comment at
fastvlm.rs line 493 ("Fallback to most likely token") documents the
intent the spec states; the returned value contradicts it. -/
theorem c1_fallback_returns_zero :
    sampleToken (fun _ => 1) ((0 : Rat) :: List.replicate 50 1) (7 / 10) 2 =
      some 0 ∧
    (rankedTopK ((0 : Rat) :: List.replicate 50 1)).head?.map Prod.fst =
      some 1 ∧
    0 ∉ (rankedTopK ((0 : Rat) :: List.replicate 50 1)).map Prod.fst := by
  norm_num [sampleToken, rankedTopK, sortRankedDesc, insertRankedDesc,
    walkCumulative, TOP_K, List.enum, List.enumFrom, List.replicate]

theorem sampleToken_isSome {fexp : Rat → Rat} {logits : List Rat}
    {temperature randomVal : Rat} (hne : logits ≠ []) :
    (sampleToken fexp logits temperature randomVal).isSome = true := by
  have hlen : (rankedTopK logits).length =
      min TOP_K logits.length := by
    simp [rankedTopK, length_sortRankedDesc]
  cases hr : rankedTopK logits with
  | nil =>
    rw [hr] at hlen
    have : logits.length ≠ 0 := fun h => hne (List.length_eq_zero.mp h)
    simp only [List.length_nil] at hlen
    unfold TOP_K at hlen
    omega
  | cons top rest =>
    simp only [sampleToken, hr]
    rfl

/-- Claim C10: `sample_token` is partial on an empty logits slice (the
`indexed_logits[0]` access panics), total on non-empty slices, and the
slice the generation loop passes — the last-position logits capped to
`min(V, 151646)` entries — is non-empty whenever the decoder emits a
positive vocabulary dimension `V`. -/
theorem c10_sampler_partiality (fexp : Rat → Rat) (logits : List Rat)
    (temperature randomVal : Rat) (vocabDim : Nat)
    (hne : logits ≠ []) (hV : 1 ≤ vocabDim) :
    sampleToken fexp [] temperature randomVal = none ∧
    (sampleToken fexp logits temperature randomVal).isSome = true ∧
    1 ≤ lastTokenLogitsLen vocabDim := by
    refine ⟨rfl, sampleToken_isSome hne, ?_⟩
    unfold lastTokenLogitsLen VOCAB_SIZE_CAP
    omega

theorem c10_sampler_partiality_witness :
    sampleToken (fun _ => 1) [] 1 0 = none ∧
    (sampleToken (fun _ => 1) [(5 : Rat)] 1 0).isSome = true ∧
    1 ≤ lastTokenLogitsLen 1 :=
  c10_sampler_partiality (fun _ => 1) [(5 : Rat)] 1 0 1 (by decide) (by decide)


/-- Modulus of `u32` arithmetic. -/
def U32_MOD : Nat := 2 ^ 32

/-- Model of the external `image` crate call
`ImageBuffer::<Rgba<u8>, _>::from_raw(width, height, data)`: per the
crate contract it returns a buffer exactly when the container holds
enough data for `width * height * 4` bytes (computed without `u32`
wrapping), and `None` otherwise. -/
def imageBufferFromRaw (width height : Nat) (data : List Nat) :
    Option (List Nat) :=
  if width * height * 4 ≤ data.length then some data else none

/-- Embedding of `rgba_to_dynamic_image` (fastvlm.rs lines 181-204).
`expectedSize` is `(width * height * 4) as usize` where the product is
computed in `u32` (wrapping on overflow in release builds); an
over-long buffer is truncated to `expectedSize` and the function
retries itself; a short buffer is an error; an exact buffer goes to
`ImageBuffer::from_raw`. -/
def rgbaToDynamicImage (data : List Nat) (width height : Nat) :
    Except String (List Nat) :=
  let expectedSize := width * height * 4 % U32_MOD
  if _hne : data.length ≠ expectedSize then
    if _hgt : expectedSize < data.length then
      rgbaToDynamicImage (data.take expectedSize) width height
    else
      Except.error "Image data length is less than expected size"
  else
    match imageBufferFromRaw width height data with
    | some img => Except.ok img
    | none => Except.error "Failed to create image buffer"
termination_by data.length
decreasing_by
  simp only [List.length_take]
  omega

theorem rgbaToDynamicImage_of_exact {data : List Nat} {width height : Nat}
    (h : data.length = width * height * 4 % U32_MOD)
    (hle : width * height * 4 ≤ data.length) :
    rgbaToDynamicImage data width height = Except.ok data := by
  unfold rgbaToDynamicImage
  rw [dif_neg (by omega)]
  simp only [imageBufferFromRaw]
  rw [if_pos hle]

/-- Claim C6 amended: provided `width * height * 4` does not overflow
`u32`, a longer buffer is truncated to exactly `width * height * 4`
bytes and converted successfully, a strictly shorter buffer fails with
the length-mismatch error, and an exact buffer is accepted unchanged. -/
theorem c6_rgba_length_check (data : List Nat) (width height : Nat)
    (hov : width * height * 4 < U32_MOD) :
    (width * height * 4 < data.length →
      rgbaToDynamicImage data width height =
        Except.ok (data.take (width * height * 4))) ∧
    (data.length < width * height * 4 →
      rgbaToDynamicImage data width height =
        Except.error "Image data length is less than expected size") ∧
    (data.length = width * height * 4 →
      rgbaToDynamicImage data width height = Except.ok data) := by
  have hmod : width * height * 4 % U32_MOD = width * height * 4 :=
    Nat.mod_eq_of_lt hov
  refine ⟨?_, ?_, ?_⟩
  · intro hgt
    unfold rgbaToDynamicImage
    rw [dif_pos (by omega), dif_pos (by omega), hmod]
    exact rgbaToDynamicImage_of_exact
      (by simp only [List.length_take]; omega)
      (by simp only [List.length_take]; omega)
  · intro hlt
    unfold rgbaToDynamicImage
    rw [dif_pos (by omega), dif_neg (by omega)]
  · intro heq
    exact rgbaToDynamicImage_of_exact (by omega) (by omega)

theorem c6_rgba_length_check_witness :
    rgbaToDynamicImage (List.replicate 9 0) 1 2 =
      Except.ok ((List.replicate 9 0).take (1 * 2 * 4)) ∧
    rgbaToDynamicImage (List.replicate 7 0) 1 2 =
      Except.error "Image data length is less than expected size" ∧
    rgbaToDynamicImage (List.replicate 8 0) 1 2 =
      Except.ok (List.replicate 8 0) := by
  obtain ⟨h1, h2, h3⟩ := c6_rgba_length_check (List.replicate 9 0) 1 2 (by decide)
  obtain ⟨h4, h5, h6⟩ := c6_rgba_length_check (List.replicate 7 0) 1 2 (by decide)
  obtain ⟨h7, h8, h9⟩ := c6_rgba_length_check (List.replicate 8 0) 1 2 (by decide)
  exact ⟨h1 (by decide), h5 (by decide), h9 (by decide)⟩

/-- Claim C6 as stated fails on the code because `width * height * 4`
is computed in `u32` and wraps: for `width = height = 65536` the
expected size wraps to `0`, so a 4-byte buffer — strictly shorter than
the mathematical `width*height*4 = 2^34` — is not rejected with the
length-mismatch error; it is truncated to the wrapped size `0` and then
fails inside buffer creation with a different error. -/
theorem c6_counterexample :
    (List.replicate 4 0).length < 65536 * 65536 * 4 ∧
    rgbaToDynamicImage (List.replicate 4 0) 65536 65536 =
      Except.error "Failed to create image buffer" := by
  have hmod : 65536 * 65536 * 4 % U32_MOD = 0 := by decide
  constructor
  · decide
  · unfold rgbaToDynamicImage
    rw [dif_pos (by rw [hmod]; decide), dif_pos (by rw [hmod]; decide), hmod]
    simp only [List.take_zero]
    unfold rgbaToDynamicImage
    rw [dif_neg (by decide)]
    simp only [imageBufferFromRaw]
    rw [if_neg (by decide)]


/-- Model of an RGB image from the `image` crate: dimensions plus a
pixel accessor `pixel x y c` giving channel `c` of the pixel at column
`x`, row `y` (as an exact rational standing for the `f32` value). -/
structure RgbImage where
  width : Nat
  height : Nat
  pixel : Nat → Nat → Nat → Rat

/-- Per-channel means of `FastVLMImageProcessor::new`
(fastvlm_image_process.rs line 18). -/
def imageMean : List Rat := [0, 0, 0]

/-- Per-channel standard deviations of `FastVLMImageProcessor::new`
(fastvlm_image_process.rs line 19). -/
def imageStd : List Rat := [1, 1, 1]

/-- Rescale factor literal of `FastVLMImageProcessor::new`
(fastvlm_image_process.rs line 21). -/
def rescaleFactor : Rat := 0.00392156862745098

/-- Embedding of the scale computation of `resize_with_padding`
(fastvlm_image_process.rs lines 44-46):
`min(target_width / orig_width, target_height / orig_height)`. -/
def resizeScale (origWidth origHeight targetWidth targetHeight : Nat) : Rat :=
  min ((targetWidth : Rat) / (origWidth : Rat))
    ((targetHeight : Rat) / (origHeight : Rat))

/-- Embedding of the resized-dimension computation of
`resize_with_padding` (fastvlm_image_process.rs lines 48-49):
`(orig as f32 * scale) as u32` truncates the non-negative product
toward zero, i.e. takes its floor. -/
def resizedDims (origWidth origHeight targetWidth targetHeight : Nat) :
    Nat × Nat :=
  let scale := resizeScale origWidth origHeight targetWidth targetHeight
  (⌊(origWidth : Rat) * scale⌋₊, ⌊(origHeight : Rat) * scale⌋₊)

/-- Embedding of the canvas construction of `resize_with_padding`
(fastvlm_image_process.rs lines 53-64): a zero-initialised (black)
`target_width x target_height` canvas receives every pixel of the
resized image at offsets `((target - new) / 2, (target - new) / 2)`. -/
def letterboxCanvas (resized : RgbImage) (targetWidth targetHeight : Nat) :
    RgbImage :=
  let xOffset := (targetWidth - resized.width) / 2
  let yOffset := (targetHeight - resized.height) / 2
  { width := targetWidth
    height := targetHeight
    pixel := fun x y c =>
      if xOffset ≤ x ∧ x < xOffset + resized.width ∧
          yOffset ≤ y ∧ y < yOffset + resized.height then
        resized.pixel (x - xOffset) (y - yOffset) c
      else 0 }

/-- Embedding of `resize_with_padding` (fastvlm_image_process.rs lines
42-67).  The Lanczos3 resampling filter `resize_exact` is an external
collaborator, injected as a parameter; the source asks it for an image
of exactly the computed dimensions. -/
def resizeWithPadding (resizeExact : RgbImage → Nat → Nat → RgbImage)
    (image : RgbImage) (targetWidth targetHeight : Nat) : RgbImage :=
  let dims := resizedDims image.width image.height targetWidth targetHeight
  letterboxCanvas (resizeExact image dims.1 dims.2) targetWidth targetHeight

/-- Model of a `[1, 3, H, W]` `ndarray::Array4<f32>` by its dimension
tuple and an entry accessor `entry b c y x`. -/
structure Tensor4 where
  dims : Nat × Nat × Nat × Nat
  entry : Nat → Nat → Nat → Nat → Rat

/-- Embedding of `to_tensor` (fastvlm_image_process.rs lines 72-87):
shape `[1, 3, height, width]`, entries
`(pixel * rescale_factor - mean[c]) / std[c]`. -/
def toTensor (image : RgbImage) : Tensor4 :=
  { dims := (1, 3, image.height, image.width)
    entry := fun _ c y x =>
      (image.pixel x y c * rescaleFactor - imageMean.getD c 0) /
        imageStd.getD c 1 }

/-- The `crop_size` of `FastVLMImageProcessor::new`
(fastvlm_image_process.rs line 17). -/
def cropSize : Nat × Nat := (1024, 1024)

/-- Embedding of `preprocess` (fastvlm_image_process.rs lines 26-39):
letterbox-resize to `crop_size`, then convert to a tensor.  The initial
`to_rgb8` alpha drop is part of the external image decoding and the
input here is already the RGB image. -/
def preprocess (resizeExact : RgbImage → Nat → Nat → RgbImage)
    (image : RgbImage) : Tensor4 :=
  toTensor (resizeWithPadding resizeExact image cropSize.1 cropSize.2)

/-- Claim C7 as stated fails on the code: for a 3x2 input the resized
dimensions are `(1024, 682)` — the floors of `3 * (1024/3)` and
`2 * (1024/3)` — and `1024 / 682` is not exactly `3 / 2`
(`1024 * 2 = 2048` but `682 * 3 = 2046`): the flooring of the uniform
scale perturbs the aspect ratio by a sub-pixel amount, so exact
aspect-ratio equality does not hold. -/
theorem c7_counterexample :
    resizedDims 3 2 1024 1024 = (1024, 682) ∧
    (resizedDims 3 2 1024 1024).1 * 2 ≠ (resizedDims 3 2 1024 1024).2 * 3 := by
  have hs : resizeScale 3 2 1024 1024 = 1024 / 3 := by
    unfold resizeScale
    rw [min_eq_left] <;> norm_num
  have hpair : resizedDims 3 2 1024 1024 = (1024, 682) := by
    unfold resizedDims
    rw [hs]
    refine Prod.ext ?_ ?_
    · show ⌊((3 : Nat) : Rat) * (1024 / 3)⌋₊ = 1024
      rw [Nat.floor_eq_iff (by positivity)]
      norm_num
    · show ⌊((2 : Nat) : Rat) * (1024 / 3)⌋₊ = 682
      rw [Nat.floor_eq_iff (by positivity)]
      norm_num
  refine ⟨hpair, ?_⟩
  rw [hpair]
  decide


theorem resizeScale_nonneg (w h tw th : Nat) :
    0 ≤ resizeScale w h tw th :=
  le_min (by positivity) (by positivity)

theorem resizedDims_le (w h tw th : Nat) (hw : 1 ≤ w) (hh : 1 ≤ h) :
    (resizedDims w h tw th).1 ≤ tw ∧ (resizedDims w h tw th).2 ≤ th := by
  have hwne : ((w : Rat)) ≠ 0 := by positivity
  have hhne : ((h : Rat)) ≠ 0 := by positivity
  have hd1 : (resizedDims w h tw th).1 =
      ⌊(w : Rat) * resizeScale w h tw th⌋₊ := rfl
  have hd2 : (resizedDims w h tw th).2 =
      ⌊(h : Rat) * resizeScale w h tw th⌋₊ := rfl
  constructor
  · rw [hd1]
    have key : (w : Rat) * resizeScale w h tw th ≤ (tw : Rat) := by
      have hle : resizeScale w h tw th ≤ (tw : Rat) / (w : Rat) :=
        min_le_left _ _
      calc (w : Rat) * resizeScale w h tw th
          ≤ (w : Rat) * ((tw : Rat) / (w : Rat)) :=
            mul_le_mul_of_nonneg_left hle (by positivity)
        _ = (tw : Rat) := by
            rw [mul_comm, div_mul_cancel₀ _ hwne]
    calc ⌊(w : Rat) * resizeScale w h tw th⌋₊ ≤ ⌊(tw : Rat)⌋₊ :=
          Nat.floor_le_floor key
      _ = tw := Nat.floor_natCast tw
  · rw [hd2]
    have key : (h : Rat) * resizeScale w h tw th ≤ (th : Rat) := by
      have hle : resizeScale w h tw th ≤ (th : Rat) / (h : Rat) :=
        min_le_right _ _
      calc (h : Rat) * resizeScale w h tw th
          ≤ (h : Rat) * ((th : Rat) / (h : Rat)) :=
            mul_le_mul_of_nonneg_left hle (by positivity)
        _ = (th : Rat) := by
            rw [mul_comm, div_mul_cancel₀ _ hhne]
    calc ⌊(h : Rat) * resizeScale w h tw th⌋₊ ≤ ⌊(th : Rat)⌋₊ :=
          Nat.floor_le_floor key
      _ = th := Nat.floor_natCast th

theorem resizedDims_aspect (w h tw th : Nat) (hw : 1 ≤ w) (hh : 1 ≤ h) :
    ((resizedDims w h tw th).1 : Rat) * h -
      ((resizedDims w h tw th).2 : Rat) * w < w ∧
    -(h : Rat) < ((resizedDims w h tw th).1 : Rat) * h -
      ((resizedDims w h tw th).2 : Rat) * w := by
  have hw0 : (0 : Rat) < w := by exact_mod_cast hw
  have hh0 : (0 : Rat) < h := by exact_mod_cast hh
  have hs0 : 0 ≤ resizeScale w h tw th := resizeScale_nonneg w h tw th
  have hd1 : (resizedDims w h tw th).1 =
      ⌊(w : Rat) * resizeScale w h tw th⌋₊ := rfl
  have hd2 : (resizedDims w h tw th).2 =
      ⌊(h : Rat) * resizeScale w h tw th⌋₊ := rfl
  have hfl1 : ((resizedDims w h tw th).1 : Rat) ≤
      (w : Rat) * resizeScale w h tw th := by
    rw [hd1]
    exact Nat.floor_le (by positivity)
  have hfl2 : (w : Rat) * resizeScale w h tw th <
      ((resizedDims w h tw th).1 : Rat) + 1 := by
    rw [hd1]
    exact_mod_cast Nat.lt_floor_add_one ((w : Rat) * resizeScale w h tw th)
  have hfl3 : ((resizedDims w h tw th).2 : Rat) ≤
      (h : Rat) * resizeScale w h tw th := by
    rw [hd2]
    exact Nat.floor_le (by positivity)
  have hfl4 : (h : Rat) * resizeScale w h tw th <
      ((resizedDims w h tw th).2 : Rat) + 1 := by
    rw [hd2]
    exact_mod_cast Nat.lt_floor_add_one ((h : Rat) * resizeScale w h tw th)
  have e1 : ((resizedDims w h tw th).1 : Rat) * h ≤
      ((w : Rat) * resizeScale w h tw th) * h :=
    mul_le_mul_of_nonneg_right hfl1 (le_of_lt hh0)
  have e2 : ((h : Rat) * resizeScale w h tw th) * w <
      (((resizedDims w h tw th).2 : Rat) + 1) * w :=
    mul_lt_mul_of_pos_right hfl4 hw0
  have e3 : ((resizedDims w h tw th).2 : Rat) * w ≤
      ((h : Rat) * resizeScale w h tw th) * w :=
    mul_le_mul_of_nonneg_right hfl3 (le_of_lt hw0)
  have e4 : ((w : Rat) * resizeScale w h tw th) * h <
      (((resizedDims w h tw th).1 : Rat) + 1) * h :=
    mul_lt_mul_of_pos_right hfl2 hh0
  constructor <;> nlinarith [e1, e2, e3, e4]

theorem letterboxCanvas_pixel (resized : RgbImage) (tw th x y c : Nat)
    (hx : x < resized.width) (hy : y < resized.height) :
    (letterboxCanvas resized tw th).pixel
      ((tw - resized.width) / 2 + x) ((th - resized.height) / 2 + y) c =
    resized.pixel x y c := by
  show (if (tw - resized.width) / 2 ≤ (tw - resized.width) / 2 + x ∧
      (tw - resized.width) / 2 + x < (tw - resized.width) / 2 + resized.width ∧
      (th - resized.height) / 2 ≤ (th - resized.height) / 2 + y ∧
      (th - resized.height) / 2 + y < (th - resized.height) / 2 + resized.height
    then resized.pixel ((tw - resized.width) / 2 + x - (tw - resized.width) / 2)
      ((th - resized.height) / 2 + y - (th - resized.height) / 2) c
    else 0) = resized.pixel x y c
  rw [if_pos ⟨by omega, by omega, by omega, by omega⟩,
    Nat.add_sub_cancel_left, Nat.add_sub_cancel_left]

/-- Claim C7 amended: for every input with positive dimensions, the
preprocessed tensor shape is exactly `[1,3,1024,1024]`; the resized
dimensions `(nw, nh)` are the floors of one uniform scale applied to
both axes, fit inside the canvas (no cropping: every resized pixel is
copied verbatim into the canvas at the centring offsets), the zero
padding on each axis splits into two sides differing by at most one
pixel, and the aspect ratio is preserved up to that rounding —
`nw * h - nh * w` lies strictly between `-h` and `w` — though not
always exactly (see the counterexample). -/
theorem c7_preprocess_letterbox (resizeExact : RgbImage → Nat → Nat → RgbImage)
    (image : RgbImage) (nw nh : Nat)
    (hw : 1 ≤ image.width) (hh : 1 ≤ image.height)
    (hre : ∀ img w h, (resizeExact img w h).width = w ∧
      (resizeExact img w h).height = h)
    (hdims : resizedDims image.width image.height 1024 1024 = (nw, nh)) :
    (preprocess resizeExact image).dims = (1, 3, 1024, 1024) ∧
    nw ≤ 1024 ∧ nh ≤ 1024 ∧
    (1024 - nw) / 2 + ((1024 - nw) - (1024 - nw) / 2) + nw = 1024 ∧
    ((1024 - nw) - (1024 - nw) / 2) - (1024 - nw) / 2 ≤ 1 ∧
    (1024 - nw) / 2 ≤ (1024 - nw) - (1024 - nw) / 2 ∧
    (1024 - nh) / 2 + ((1024 - nh) - (1024 - nh) / 2) + nh = 1024 ∧
    ((1024 - nh) - (1024 - nh) / 2) - (1024 - nh) / 2 ≤ 1 ∧
    (1024 - nh) / 2 ≤ (1024 - nh) - (1024 - nh) / 2 ∧
    (∀ x y c, x < nw → y < nh →
      (resizeWithPadding resizeExact image 1024 1024).pixel
        ((1024 - nw) / 2 + x) ((1024 - nh) / 2 + y) c =
      (resizeExact image nw nh).pixel x y c) ∧
    (nw : Rat) * image.height - (nh : Rat) * image.width < image.width ∧
    -(image.height : Rat) < (nw : Rat) * image.height -
      (nh : Rat) * image.width := by
  obtain ⟨hle1, hle2⟩ := resizedDims_le image.width image.height 1024 1024 hw hh
  rw [hdims] at hle1 hle2
  obtain ⟨ha1, ha2⟩ := resizedDims_aspect image.width image.height 1024 1024 hw hh
  rw [hdims] at ha1 ha2
  have hcast : resizeWithPadding resizeExact image 1024 1024 =
      letterboxCanvas (resizeExact image nw nh) 1024 1024 := by
    unfold resizeWithPadding
    rw [hdims]
  refine ⟨rfl, hle1, hle2, by omega, by omega, by omega, by omega, by omega,
    by omega, ?_, ha1, ha2⟩
  intro x y c hx hy
  rw [hcast]
  have hpx := letterboxCanvas_pixel (resizeExact image nw nh) 1024 1024 x y c
    (by rw [(hre image nw nh).1]; exact hx)
    (by rw [(hre image nw nh).2]; exact hy)
  rw [(hre image nw nh).1, (hre image nw nh).2] at hpx
  exact hpx

/-- Witness resampler: returns a zero image of the requested size. -/
def witnessResize : RgbImage → Nat → Nat → RgbImage :=
  fun _ w h => { width := w, height := h, pixel := fun _ _ _ => 0 }

/-- Witness input image: 2048 x 1024, all black. -/
def witnessImage : RgbImage :=
  { width := 2048, height := 1024, pixel := fun _ _ _ => 0 }

theorem c7_preprocess_letterbox_witness :
    (preprocess witnessResize witnessImage).dims = (1, 3, 1024, 1024) ∧
    1024 ≤ 1024 ∧ 512 ≤ 1024 ∧
    (1024 - 1024) / 2 + ((1024 - 1024) - (1024 - 1024) / 2) + 1024 = 1024 ∧
    ((1024 - 1024) - (1024 - 1024) / 2) - (1024 - 1024) / 2 ≤ 1 ∧
    (1024 - 1024) / 2 ≤ (1024 - 1024) - (1024 - 1024) / 2 ∧
    (1024 - 512) / 2 + ((1024 - 512) - (1024 - 512) / 2) + 512 = 1024 ∧
    ((1024 - 512) - (1024 - 512) / 2) - (1024 - 512) / 2 ≤ 1 ∧
    (1024 - 512) / 2 ≤ (1024 - 512) - (1024 - 512) / 2 ∧
    (∀ x y c, x < 1024 → y < 512 →
      (resizeWithPadding witnessResize witnessImage 1024 1024).pixel
        ((1024 - 1024) / 2 + x) ((1024 - 512) / 2 + y) c =
      (witnessResize witnessImage 1024 512).pixel x y c) ∧
    (1024 : Rat) * witnessImage.height - (512 : Rat) * witnessImage.width <
      witnessImage.width ∧
    -(witnessImage.height : Rat) < (1024 : Rat) * witnessImage.height -
      (512 : Rat) * witnessImage.width := by
  have hdims : resizedDims witnessImage.width witnessImage.height 1024 1024 =
      (1024, 512) := by
    have hs : resizeScale 2048 1024 1024 1024 = 1 / 2 := by
      unfold resizeScale
      rw [min_eq_left] <;> norm_num
    show resizedDims 2048 1024 1024 1024 = (1024, 512)
    unfold resizedDims
    rw [hs]
    refine Prod.ext ?_ ?_
    · show ⌊((2048 : Nat) : Rat) * (1 / 2)⌋₊ = 1024
      rw [Nat.floor_eq_iff (by positivity)]
      norm_num
    · show ⌊((1024 : Nat) : Rat) * (1 / 2)⌋₊ = 512
      rw [Nat.floor_eq_iff (by positivity)]
      norm_num
  exact c7_preprocess_letterbox witnessResize witnessImage 1024 512
    (by decide) (by decide) (fun _ _ _ => ⟨rfl, rfl⟩) hdims

end FastVLM
